import Mathlib

set_option maxHeartbeats 1000000

/-!
Shallow embedding of the kittik cursor library: `src/Cell.js`, `src/Cursor.js`,
`src/util/displayModes.js`, `src/util/encodeToVT100.js`, together with theorems
checking the natural-language specification against it.

JavaScript numbers that the code only ever uses as integers are modelled as
`Int`; `Math.floor` on such an integer is the identity and is dropped.
Omitted (undefined) arguments that a JavaScript default parameter would fill
are modelled as `Option` arguments, `none` standing for omission.
-/

/-- Display-mode record mirroring the plain object
`{bold, dim, underlined, blink, reverse, hidden}` used by both `Cell` and `Cursor`. -/
structure Display where
  bold : Bool
  dim : Bool
  underlined : Bool
  blink : Bool
  reverse : Bool
  hidden : Bool
deriving DecidableEq

/-- Styled cell: the fields `_char`, `_x`, `_y`, `_background`, `_foreground`,
`_display`, `_modified` of `Cell` from `src/Cell.js`. -/
structure Cell where
  char : String
  x : Int
  y : Int
  background : String
  foreground : String
  display : Display
  modified : Bool
deriving DecidableEq

/-- Modelled from the spec: the injected color table (`util/colors.js`) is not under
`src/`; the spec's wire-format section gives the example entries BLACK=0, YELLOW=11,
WHITE=15 and treats the table as fixed injectable lookup data, with unknown names
absent from it. -/
def COLORS : String → Option Nat
  | "BLACK" => some 0
  | "YELLOW" => some 11
  | "WHITE" => some 15
  | _ => none

/-- Truthiness of the JavaScript expression `COLORS[color]`, whose value is either
`undefined` (absent key) or a number: `undefined` and `0` are falsy, every other
natural number is truthy. -/
def jsTruthy : Option Nat → Bool
  | none => false
  | some n => n != 0

/-- Uppercasing as performed by `String.prototype.toUpperCase` on the ASCII color
names the library uses: map `Char.toUpper` over the characters. -/
def jsToUpper (s : String) : String := String.mk (s.data.map Char.toUpper)

/-- Embedding of `encodeToVT100` from `src/util/encodeToVT100.js`: prepend the
ESC byte `0x1B` to the given code. -/
def encodeToVT100 (code : String) : String := "\x1b" ++ code

/-- Constants of `DISPLAY_MODES` from `src/util/displayModes.js` that `Cell` uses. -/
def DISPLAY_MODES_RESET_ALL : String := "[0m"

/-- Bold set code from `src/util/displayModes.js`. -/
def DISPLAY_MODES_BOLD : String := "[1m"

/-- Dim set code from `src/util/displayModes.js`. -/
def DISPLAY_MODES_DIM : String := "[2m"

/-- Underlined set code from `src/util/displayModes.js`. -/
def DISPLAY_MODES_UNDERLINED : String := "[4m"

/-- Blink set code from `src/util/displayModes.js`. -/
def DISPLAY_MODES_BLINK : String := "[5m"

/-- Reverse set code from `src/util/displayModes.js`. -/
def DISPLAY_MODES_REVERSE : String := "[7m"

/-- Hidden set code from `src/util/displayModes.js`. -/
def DISPLAY_MODES_HIDDEN : String := "[8m"

/-- Embedding of `Cell#setChar(char = ' ')`: `this._char = char.slice(0, 1)`.
`none` models an omitted argument, to which the default `' '` applies before
the one-character slice. -/
def Cell.setChar (c : Cell) (char : Option String) : Cell :=
  { c with char := (char.getD " ").take 1 }

/-- Embedding of `Cell#setX(x = 0)`: `this._x = Math.floor(x)`. -/
def Cell.setX (c : Cell) (x : Option Int) : Cell :=
  { c with x := x.getD 0 }

/-- Embedding of `Cell#setY(y = 0)`: `this._y = Math.floor(y)`. -/
def Cell.setY (c : Cell) (y : Option Int) : Cell :=
  { c with y := y.getD 0 }

/-- Color-name normalization as a dedicated pure function (the spec suggests
`normalizeColor`): uppercase the name, keep it when the JavaScript lookup
`COLORS[color]` is truthy, else fall back to `none`. -/
def normalizeColor (name : String) : String :=
  let color := jsToUpper name
  if jsTruthy (COLORS color) then color else "none"

/-- Embedding of `Cell#setBackground(colorName = 'none')`: uppercase the name and
store it when the JavaScript lookup `COLORS[color]` is truthy, else store `'none'`. -/
def Cell.setBackground (c : Cell) (colorName : Option String) : Cell :=
  { c with background := normalizeColor (colorName.getD "none") }

/-- Embedding of `Cell#setForeground(colorName = 'none')`: same lookup as
`setBackground`, stored into the foreground field. -/
def Cell.setForeground (c : Cell) (colorName : Option String) : Cell :=
  { c with foreground := normalizeColor (colorName.getD "none") }

/-- Embedding of `Cell#setDisplay(bold, dim, underlined, blink, reverse, hidden)`,
each argument defaulting to `false` when omitted. -/
def Cell.setDisplay (c : Cell)
    (bold dim underlined blink reverse hidden : Option Bool) : Cell :=
  { c with display :=
      ⟨bold.getD false, dim.getD false, underlined.getD false,
       blink.getD false, reverse.getD false, hidden.getD false⟩ }

/-- Embedding of `Cell#setModified(isModified = true)`. -/
def Cell.setModified (c : Cell) (isModified : Option Bool) : Cell :=
  { c with modified := isModified.getD true }

/-- Embedding of `Cell#isModified()`: `!!this._modified`. -/
def Cell.isModified (c : Cell) : Bool := c.modified

/-- Embedding of `Cell#reset()`:
`setChar(' ').setBackground('none').setForeground('none')`
`.setDisplay(false, false, false, false, false, false).setModified(true)`. -/
def Cell.reset (c : Cell) : Cell :=
  ((((c.setChar (some " ")).setBackground (some "none")).setForeground
      (some "none")).setDisplay (some false) (some false) (some false) (some false)
      (some false) (some false)).setModified (some true)

/-- Text interpolated for `${COLORS[name]}` inside a JavaScript template string:
the decimal number, or `"undefined"` for an absent key. -/
def colorCodeText (name : String) : String :=
  match COLORS name with
  | some n => ToString.toString n
  | none => "undefined"

/-- Embedding of `Cell#toString()` from `src/Cell.js`: position sequence, optional
background and foreground codes, the six optional style codes, the character,
and the reset-all code, concatenated in the source's order. -/
def Cell.toString (c : Cell) : String :=
  encodeToVT100 ("[" ++ ToString.toString (c.y + 1) ++ ";" ++
      ToString.toString (c.x + 1) ++ "f") ++
  (if c.background ≠ "none" then
      encodeToVT100 ("[48;5;" ++ colorCodeText c.background ++ "m") else "") ++
  (if c.foreground ≠ "none" then
      encodeToVT100 ("[38;5;" ++ colorCodeText c.foreground ++ "m") else "") ++
  (if c.display.bold then encodeToVT100 DISPLAY_MODES_BOLD else "") ++
  (if c.display.dim then encodeToVT100 DISPLAY_MODES_DIM else "") ++
  (if c.display.underlined then encodeToVT100 DISPLAY_MODES_UNDERLINED else "") ++
  (if c.display.blink then encodeToVT100 DISPLAY_MODES_BLINK else "") ++
  (if c.display.reverse then encodeToVT100 DISPLAY_MODES_REVERSE else "") ++
  (if c.display.hidden then encodeToVT100 DISPLAY_MODES_HIDDEN else "") ++
  c.char ++
  encodeToVT100 DISPLAY_MODES_RESET_ALL

/-- Cell produced by `new Cell()` (the constructor of `src/Cell.js` with no
arguments: every field is initialised, then the setters run with omitted
arguments and `setModified(false)` ends the constructor). -/
def Cell.fresh : Cell :=
  (((((({ char := " ", x := 0, y := 0, background := "none", foreground := "none",
          display := ⟨false, false, false, false, false, false⟩,
          modified := false : Cell }.setChar
      none).setX none).setY none).setBackground none).setForeground
      none).setDisplay none none none none none none).setModified (some false)

/-- ESC is the single control byte 0x1B (spec, wire format section). -/
def ESC : String := "\x1b"

/-- Style codes of the active flags in the spec's fixed order bold, dim,
underlined, blink, reverse, hidden: one wire-format code per flag that is true. -/
def styleCodes (d : Display) : List String :=
  List.filterMap (fun p => if p.1 then some p.2 else none)
    [(d.bold, ESC ++ "[1m"), (d.dim, ESC ++ "[2m"),
     (d.underlined, ESC ++ "[4m"), (d.blink, ESC ++ "[5m"),
     (d.reverse, ESC ++ "[7m"), (d.hidden, ESC ++ "[8m")]

/-- Render format written from the spec's words: absolute position for row `y+1`,
column `x+1`, then background code only if not `none`, foreground code only if
not `none`, then the active style codes in fixed order, the literal character,
and a final reset-all-attributes code. -/
def renderSpec (c : Cell) : String :=
  ESC ++ "[" ++ ToString.toString (c.y + 1) ++ ";" ++
      ToString.toString (c.x + 1) ++ "f" ++
  (if c.background = "none" then "" else
      ESC ++ "[48;5;" ++ colorCodeText c.background ++ "m") ++
  (if c.foreground = "none" then "" else
      ESC ++ "[38;5;" ++ colorCodeText c.foreground ++ "m") ++
  String.join (styleCodes c.display) ++
  c.char ++
  ESC ++ "[0m"

/-- Virtual screen state: the fields `_width`, `_height`, `_x`, `_y`,
`_background`, `_foreground`, `_display`, `_cells`, `_lastFrame` of `Cursor`
from `src/Cursor.js`, plus `output`, the ordered list of strings the cursor has
written to its stream so far (the stream consumes writes in call order). -/
structure Cursor where
  width : Nat
  height : Nat
  x : Int
  y : Int
  background : String
  foreground : String
  display : Display
  cells : List Cell
  lastFrame : List String
  output : List String
deriving DecidableEq

/-- Embedding of the `Cursor` constructor with explicit width and height: cursor
at (0,0), pen `none`, `none` and all-false display modes, `width*height` fresh
cells, as many empty shadow strings, and nothing written to the stream yet. -/
def Cursor.create (width height : Nat) : Cursor :=
  { width := width, height := height, x := 0, y := 0,
    background := "none", foreground := "none",
    display := ⟨false, false, false, false, false, false⟩,
    cells := List.replicate (width * height) Cell.fresh,
    lastFrame := List.replicate (width * height) "",
    output := [] }

/-- Embedding of `Cursor#getPointerFromXY(x, y)`: `y * this._width + x`. -/
def Cursor.getPointerFromXY (cur : Cursor) (x y : Int) : Int :=
  y * (cur.width : Int) + x

/-- Embedding of `Cursor#getXYFromPointer(index)`:
`[index - Math.floor(index / width) * width, Math.floor(index / width)]`;
`Math.floor` of the real quotient of integers is floor division. -/
def Cursor.getXYFromPointer (cur : Cursor) (index : Int) : Int × Int :=
  (index - (Int.fdiv index (cur.width : Int)) * (cur.width : Int),
   Int.fdiv index (cur.width : Int))

/-- Update of a JavaScript array element `l[i]` in place: when index `i` denotes
an existing element it is replaced by `f` of its value, any other index leaves
the array unchanged (this is the guard `l[i] && ...` of `Cursor#erase`; in
`Cursor#write` the viewport check makes the index valid before the update). -/
def listModifyInt (l : List α) (i : Int) (f : α → α) : List α :=
  if h : 0 ≤ i ∧ i.toNat < l.length then
    l.set i.toNat (f (l.get ⟨i.toNat, h.2⟩))
  else l

/-- One iteration of the loop in `Cursor#write(data)`: when the cursor lies
inside `[0,width) x [0,height)`, the cell at `getPointerFromXY(x, y)` is
overwritten through the chained setters with the character, the cursor
coordinates and the pen state and marked modified; in all cases the cursor
then advances one column to the right. -/
def Cursor.writeChar (cur : Cursor) (char : Char) : Cursor :=
  let pointer := cur.getPointerFromXY cur.x cur.y
  let cur2 :=
    if 0 ≤ cur.x ∧ cur.x < (cur.width : Int) ∧
        0 ≤ cur.y ∧ cur.y < (cur.height : Int) then
      { cur with cells := listModifyInt cur.cells pointer (fun c =>
          ((((((c.setChar (some (String.singleton char))).setX
              (some cur.x)).setY (some cur.y)).setBackground
              (some cur.background)).setForeground
              (some cur.foreground)).setDisplay (some cur.display.bold)
              (some cur.display.dim) (some cur.display.underlined)
              (some cur.display.blink) (some cur.display.reverse)
              (some cur.display.hidden)).setModified (some true)) }
    else cur
  { cur2 with x := cur2.x + 1 }

/-- Embedding of `Cursor#write(data)`: the loop body applied to every character
of the data, in order. -/
def Cursor.write (cur : Cursor) (data : List Char) : Cursor :=
  data.foldl Cursor.writeChar cur

/-- Cell value produced when `Cursor#write` stamps character `char` at column
`x` of the cursor's current row: all seven fields are overwritten, the pen
colors being validated through the cell setters. -/
def penCell (cur : Cursor) (char : Char) (x : Int) : Cell :=
  { char := (String.singleton char).take 1, x := x, y := cur.y,
    background := normalizeColor cur.background,
    foreground := normalizeColor cur.foreground,
    display := ⟨cur.display.bold, cur.display.dim, cur.display.underlined,
      cur.display.blink, cur.display.reverse, cur.display.hidden⟩,
    modified := true }

/-- Body of `Cursor#flush()` over the paired cell and shadow lists, in index
order: a modified cell is unmarked and rendered; the rendered string replaces
the shadow entry and is appended to the written output exactly when it differs
from the current shadow entry. -/
def flushZip : List (Cell × String) → List (Cell × String) × List String
  | [] => ([], [])
  | (c, lf) :: rest =>
    let done := flushZip rest
    if c.isModified then
      let cellSeq := Cell.toString (c.setModified (some false))
      if cellSeq ≠ lf then
        ((c.setModified (some false), cellSeq) :: done.1, cellSeq :: done.2)
      else ((c.setModified (some false), lf) :: done.1, done.2)
    else ((c, lf) :: done.1, done.2)

/-- Embedding of `Cursor#flush()`: run the loop over every index in order,
store the updated cells and shadow entries, and append the strings written to
the stream to the output. -/
def Cursor.flush (cur : Cursor) : Cursor :=
  let done := flushZip (cur.cells.zip cur.lastFrame)
  { cur with cells := done.1.map Prod.fst, lastFrame := done.1.map Prod.snd,
             output := cur.output ++ done.2 }

/-- Flush protocol written from the claim's words: visit every grid position in
index order; skip a cell whose dirty flag is false; for a dirty cell clear the
flag and render it; write the rendered string to the sink and overwrite the
shadow entry with it if and only if it differs from the current shadow entry. -/
def flushSpec (cur : Cursor) : Cursor :=
  { cur with
    cells := cur.cells.map (fun c =>
      if c.isModified then c.setModified (some false) else c),
    lastFrame := (cur.cells.zip cur.lastFrame).map (fun p =>
      if p.1.isModified ∧ Cell.toString (p.1.setModified (some false)) ≠ p.2
      then Cell.toString (p.1.setModified (some false)) else p.2),
    output := cur.output ++ (cur.cells.zip cur.lastFrame).filterMap (fun p =>
      if p.1.isModified ∧ Cell.toString (p.1.setModified (some false)) ≠ p.2
      then some (Cell.toString (p.1.setModified (some false))) else none) }

/-- Inclusive integer range `a..b`, the indices visited by
`for (var v = a; v <= b; v++)`; empty when `b < a`. -/
def intRange (a b : Int) : List Int :=
  (List.range (b + 1 - a).toNat).map (fun i : Nat => a + (i : Int))

/-- Embedding of `Cursor#erase(x1, y1, x2, y2)`: iterate y from y1 to y2 and,
inside, x from x1 to x2; at each step compute `pointer = getPointerFromXY(x, y)`
and call `reset()` on `this._cells[pointer]` when that element exists
(the `this._cells[pointer] &&` guard), doing nothing otherwise. -/
def Cursor.erase (cur : Cursor) (x1 y1 x2 y2 : Int) : Cursor :=
  (intRange y1 y2).foldl (fun st y =>
    (intRange x1 x2).foldl (fun st2 x =>
      { st2 with cells :=
          listModifyInt st2.cells (st2.getPointerFromXY x y) Cell.reset }) st)
    cur

/-- Pointer list visited by `Cursor#erase`: for each y of the outer loop and x
of the inner loop, the index `y*width + x` handed to the array guard. -/
def erasePointers (cur : Cursor) (x1 y1 x2 y2 : Int) : List Int :=
  (intRange y1 y2).flatMap (fun y =>
    (intRange x1 x2).map (fun x => y * (cur.width : Int) + x))

/-- Folding of the ESC byte onto the position-sequence opener. -/
lemma esc_fold_pos (t : String) : "\x1b" ++ ("[" ++ t) = "\x1b[" ++ t := rfl

/-- Folding of the ESC byte onto the background-color opener. -/
lemma esc_fold_bg (t : String) : "\x1b" ++ ("[48;5;" ++ t) = "\x1b[48;5;" ++ t := rfl

/-- Folding of the ESC byte onto the foreground-color opener. -/
lemma esc_fold_fg (t : String) : "\x1b" ++ ("[38;5;" ++ t) = "\x1b[38;5;" ++ t := rfl

/-- Shared unfolding lemma: the embedded `Cell#toString` agrees with the render
format assembled from the spec's words. -/
lemma render_eq_renderSpec (c : Cell) : Cell.toString c = renderSpec c := by
  obtain ⟨ch, x, y, bg, fg, ⟨b, di, u, bl, r, h⟩, m⟩ := c
  cases b <;> cases di <;> cases u <;> cases bl <;> cases r <;> cases h <;>
    by_cases hbg : bg = "none" <;> by_cases hfg : fg = "none" <;>
      simp [Cell.toString, renderSpec, styleCodes, encodeToVT100, ESC,
        DISPLAY_MODES_BOLD, DISPLAY_MODES_DIM, DISPLAY_MODES_UNDERLINED,
        DISPLAY_MODES_BLINK, DISPLAY_MODES_REVERSE, DISPLAY_MODES_HIDDEN,
        DISPLAY_MODES_RESET_ALL, hbg, hfg, String.join,
        String.append_assoc, String.empty_append, String.append_empty,
        esc_fold_pos, esc_fold_bg, esc_fold_fg]

/-- C6: the cell render function produces exactly the concatenation, in the fixed
order, of: the absolute-position sequence for row y+1, column x+1; the background
color code only if the background is not `none`; the foreground color code only if
the foreground is not `none`; one code per active style flag in the order bold,
dim, underlined, blink, reverse, hidden; the literal character; and the final
reset-all-attributes code. -/
theorem cell_render_format (c : Cell) : Cell.toString c = renderSpec c :=
  render_eq_renderSpec c

/-- C5 (evidence of the code bug): with the spec's color table, `setBackground`
and `setForeground` lose every color whose numeric code is 0, because the
JavaScript guard `COLORS[color] ? color : 'none'` treats the number 0 as falsy:
`setBackground('black')` stores `'none'` although BLACK is present in the table,
while the repository's own Cell test expects `'BLACK'`. Nonzero codes and unknown
names behave as the claim says. -/
theorem setBackground_black_stored_as_none :
    (Cell.fresh.setBackground (some "black")).background = "none" ∧
    (Cell.fresh.setForeground (some "black")).foreground = "none" ∧
    (Cell.fresh.setBackground (some "yellow")).background = "YELLOW" ∧
    (Cell.fresh.setForeground (some "white")).foreground = "WHITE" ∧
    (Cell.fresh.setBackground (some "notacolor")).background = "none" := by
  decide

/-- C7 (counterexample): the claim says `setChar` stores the default character
`' '` when its argument is the empty string, but the JavaScript default parameter
only fires for an omitted argument, so `setChar('')` stores the empty string,
which differs from `' '`. -/
theorem setChar_empty_string_not_space :
    (Cell.fresh.setChar (some "")).char = "" ∧ ("" : String) ≠ " " := by
  decide

/-- C7 (amended): `setChar(c)` stores the first display unit of `c`
(`setChar("hello")` yields `"h"`), stores the default `' '` only when `c` is
omitted, and stores the empty string when `c` is the empty string. -/
theorem setChar_first_unit (c : Cell) (s : String) :
    (c.setChar (some s)).char = s.take 1 ∧
    (c.setChar none).char = " " ∧
    (c.setChar (some "hello")).char = "h" ∧
    (c.setChar (some "")).char = "" := by
  refine ⟨rfl, rfl, rfl, rfl⟩

/-- C10: `Cell.reset` leaves the coordinates unchanged and sets only the
character (to a space), the colors (to `none`), the six style flags (to false)
and the dirty flag (to true); consequently the reset cell still renders at its
previously stored grid coordinates. -/
theorem reset_preserves_coordinates (c : Cell) :
    (c.reset).x = c.x ∧
    (c.reset).y = c.y ∧
    (c.reset).char = " " ∧
    (c.reset).background = "none" ∧
    (c.reset).foreground = "none" ∧
    (c.reset).display = ⟨false, false, false, false, false, false⟩ ∧
    (c.reset).modified = true ∧
    Cell.toString (c.reset) =
      ESC ++ "[" ++ ToString.toString (c.y + 1) ++ ";" ++
        ToString.toString (c.x + 1) ++ "f" ++ " " ++ ESC ++ "[0m" := by
  refine ⟨rfl, rfl, rfl, rfl, rfl, rfl, rfl, ?_⟩
  have hb : (c.reset).background = "none" := rfl
  have hf : (c.reset).foreground = "none" := rfl
  have hd : (c.reset).display = ⟨false, false, false, false, false, false⟩ := rfl
  have hch : (c.reset).char = " " := rfl
  have hx : (c.reset).x = c.x := rfl
  have hy : (c.reset).y = c.y := rfl
  rw [render_eq_renderSpec]
  simp [renderSpec, hb, hf, hd, hch, hx, hy, styleCodes, String.join,
    String.append_assoc, String.empty_append, String.append_empty,
    esc_fold_pos, esc_fold_bg, esc_fold_fg]

/-- C8: coordinate round trip: for all (x,y) with 0 <= x < width and
0 <= y < height, `getXYFromPointer (getPointerFromXY x y) = (x, y)`, the pointer
being `y*width + x` and the inverse taking the remainder and quotient by width. -/
theorem pointer_roundtrip (cur : Cursor) (x y : Int)
    (hx0 : 0 ≤ x) (hxw : x < (cur.width : Int))
    (hy0 : 0 ≤ y) (hyh : y < (cur.height : Int)) :
    cur.getXYFromPointer (cur.getPointerFromXY x y) = (x, y) := by
  have hw : (0 : Int) < (cur.width : Int) := lt_of_le_of_lt hx0 hxw
  unfold Cursor.getXYFromPointer Cursor.getPointerFromXY
  rw [Int.fdiv_eq_ediv _ (by omega)]
  rw [add_comm, Int.add_mul_ediv_right _ _ (by omega : (cur.width : Int) ≠ 0),
    Int.ediv_eq_zero_of_lt hx0 hxw]
  simp only [Prod.mk.injEq]
  exact ⟨by ring, by ring⟩

/-- Radio check for `pointer_roundtrip` on a concrete 5 by 4 screen at (3,2). -/
theorem pointer_roundtrip_witness :
    ((0 : Int) ≤ 3 ∧ (3 : Int) < ((Cursor.create 5 4).width : Int) ∧
      (0 : Int) ≤ 2 ∧ (2 : Int) < ((Cursor.create 5 4).height : Int)) ∧
    (Cursor.create 5 4).getXYFromPointer
      ((Cursor.create 5 4).getPointerFromXY 3 2) = (3, 2) :=
  ⟨by decide,
   pointer_roundtrip (Cursor.create 5 4) 3 2 (by decide) (by decide)
     (by decide) (by decide)⟩

/-- C2 (counterexample): on a 2 by 2 screen, `erase(2, 0, 2, 0)` visits the
coordinate (2,0), which lies outside the grid, yet its pointer 0*2+2 = 2 is a
valid array index, so the cell at grid position (0,1) — a cell outside the
rectangle — is reset (first conjunct identifies position (0,1) with index 2;
the cell there becomes modified although it was clean before and the claim
says no other cell is mutated). -/
theorem erase_out_of_rect_mutation :
    (Cursor.create 2 2).getXYFromPointer 2 = (0, 1) ∧
    (((Cursor.create 2 2).erase 2 0 2 0).cells[2]?).map Cell.modified
      = some true ∧
    (((Cursor.create 2 2).cells[2]?).map Cell.modified = some false) := by
  decide

/-- Unfolding of `flushZip` on a cons cell. -/
lemma flushZip_cons (c : Cell) (lf : String) (rest : List (Cell × String)) :
    flushZip ((c, lf) :: rest) =
      if c.isModified then
        (if Cell.toString (c.setModified (some false)) ≠ lf then
          ((c.setModified (some false),
              Cell.toString (c.setModified (some false))) :: (flushZip rest).1,
            Cell.toString (c.setModified (some false)) :: (flushZip rest).2)
        else ((c.setModified (some false), lf) :: (flushZip rest).1,
          (flushZip rest).2))
      else ((c, lf) :: (flushZip rest).1, (flushZip rest).2) := rfl

/-- Every cell coming out of the flush loop has its dirty flag cleared. -/
lemma flushZip_all_clean (l : List (Cell × String)) :
    ∀ p ∈ (flushZip l).1, p.1.modified = false := by
  induction l with
  | nil => intro p hp; simp [flushZip] at hp
  | cons hd tl ih =>
    obtain ⟨c, lf⟩ := hd
    intro p hp
    rw [flushZip_cons] at hp
    by_cases hm : c.isModified
    · rw [if_pos hm] at hp
      by_cases hne : Cell.toString (c.setModified (some false)) ≠ lf
      · rw [if_pos hne] at hp
        rcases List.mem_cons.mp hp with h | h
        · subst h; rfl
        · exact ih p h
      · rw [if_neg hne] at hp
        rcases List.mem_cons.mp hp with h | h
        · subst h; rfl
        · exact ih p h
    · rw [if_neg hm] at hp
      rcases List.mem_cons.mp hp with h | h
      · subst h
        simpa [Cell.isModified, Bool.not_eq_true] using hm
      · exact ih p h

/-- The flush loop leaves a fully clean screen untouched and writes nothing. -/
lemma flushZip_clean_id (l : List (Cell × String))
    (h : ∀ p ∈ l, p.1.modified = false) : flushZip l = (l, []) := by
  induction l with
  | nil => rfl
  | cons hd tl ih =>
    obtain ⟨c, lf⟩ := hd
    have hc : c.modified = false := h (c, lf) (List.mem_cons_self _ _)
    have hm : ¬(c.isModified = true) := by simp [Cell.isModified, hc]
    rw [flushZip_cons, if_neg hm,
      ih (fun p hp => h p (List.mem_cons_of_mem _ hp))]

/-- Zipping the two projections of a list of pairs recovers the list. -/
lemma zip_map_fst_snd (l : List (α × β)) :
    (l.map Prod.fst).zip (l.map Prod.snd) = l := by
  have h := List.zip_unzip l
  simpa [List.unzip_eq_map] using h

/-- Flushing a screen without a single dirty cell changes nothing and emits
nothing. -/
lemma flush_of_clean (c : Cursor) (hlen : c.cells.length = c.lastFrame.length)
    (h : ∀ cell ∈ c.cells, cell.modified = false) : c.flush = c := by
  have hz : flushZip (c.cells.zip c.lastFrame) = (c.cells.zip c.lastFrame, []) := by
    apply flushZip_clean_id
    intro p hp
    obtain ⟨a, b⟩ := p
    exact h a (List.of_mem_zip hp).1
  show Cursor.flush c = c
  simp only [Cursor.flush, hz]
  rw [List.map_fst_zip _ _ (le_of_eq hlen), List.map_snd_zip _ _ (ge_of_eq hlen),
    List.append_nil]

/-- C4: idempotent flush: for every screen state, a second flush directly after
a first one changes nothing at all; in particular it appends nothing to the
output sink. -/
theorem flush_idempotent (cur : Cursor) : (cur.flush).flush = cur.flush := by
  apply flush_of_clean
  · simp [Cursor.flush]
  · intro cell hc
    simp only [Cursor.flush, List.mem_map] at hc
    obtain ⟨p, hp, rfl⟩ := hc
    exact flushZip_all_clean _ p hp

/-- C9: every cell of a freshly constructed screen has its dirty flag false,
so flushing a new screen writes nothing to the output sink and leaves every
shadow entry equal to the empty string. -/
theorem fresh_screen_flush (w h : Nat) :
    (∀ c ∈ (Cursor.create w h).cells, c.modified = false) ∧
    (Cursor.create w h).flush = Cursor.create w h ∧
    ((Cursor.create w h).flush).output = [] ∧
    ((Cursor.create w h).flush).lastFrame = List.replicate (w * h) "" := by
  have hclean : ∀ c ∈ (Cursor.create w h).cells, c.modified = false := by
    intro c hc
    rw [List.eq_of_mem_replicate hc]
    rfl
  have hflush : (Cursor.create w h).flush = Cursor.create w h :=
    flush_of_clean _ (by simp [Cursor.create]) hclean
  refine ⟨hclean, hflush, ?_, ?_⟩
  · rw [hflush]; rfl
  · rw [hflush]; rfl

/-- Cells after the flush loop: dirty cells get their flag cleared, clean ones
are untouched. -/
lemma flushZip_map_fst (l : List (Cell × String)) :
    (flushZip l).1.map Prod.fst =
      l.map (fun p =>
        if p.1.isModified then p.1.setModified (some false) else p.1) := by
  induction l with
  | nil => rfl
  | cons hd tl ih =>
    obtain ⟨c, lf⟩ := hd
    rw [flushZip_cons]
    by_cases hm : c.isModified
    · by_cases hne : Cell.toString (c.setModified (some false)) ≠ lf
      · rw [if_pos hm, if_pos hne]; simp [hm, ih]
      · rw [if_pos hm, if_neg hne]; simp [hm, ih]
    · rw [if_neg hm]; simp [hm, ih]

/-- Shadow entries after the flush loop: replaced by the rendered string exactly
for the dirty cells whose render differs from the current entry. -/
lemma flushZip_map_snd (l : List (Cell × String)) :
    (flushZip l).1.map Prod.snd =
      l.map (fun p =>
        if p.1.isModified ∧ Cell.toString (p.1.setModified (some false)) ≠ p.2
        then Cell.toString (p.1.setModified (some false)) else p.2) := by
  induction l with
  | nil => rfl
  | cons hd tl ih =>
    obtain ⟨c, lf⟩ := hd
    rw [flushZip_cons]
    by_cases hm : c.isModified
    · by_cases hne : Cell.toString (c.setModified (some false)) ≠ lf
      · rw [if_pos hm, if_pos hne]; simp [hm, hne, ih]
      · rw [if_pos hm, if_neg hne]; simp [hm, hne, ih]
    · rw [if_neg hm]; simp [hm, ih]

/-- Output of the flush loop: the renders of the dirty cells that differ from
their shadow entries, in index order. -/
lemma flushZip_out (l : List (Cell × String)) :
    (flushZip l).2 =
      l.filterMap (fun p =>
        if p.1.isModified ∧ Cell.toString (p.1.setModified (some false)) ≠ p.2
        then some (Cell.toString (p.1.setModified (some false))) else none) := by
  induction l with
  | nil => rfl
  | cons hd tl ih =>
    obtain ⟨c, lf⟩ := hd
    rw [flushZip_cons]
    by_cases hm : c.isModified
    · by_cases hne : Cell.toString (c.setModified (some false)) ≠ lf
      · rw [if_pos hm, if_pos hne]; simp [hm, hne, ih]
      · rw [if_pos hm, if_neg hne]; simp [hm, hne, ih]
    · rw [if_neg hm]; simp [hm, ih]

/-- Mapping a function of the first components over a zip of equally long lists
is mapping it over the first list. -/
lemma map_fst_fn_zip (f : α → γ) (l₁ : List α) :
    ∀ l₂ : List β, l₁.length = l₂.length →
      (l₁.zip l₂).map (fun p => f p.1) = l₁.map f := by
  induction l₁ with
  | nil => intro l₂ h; simp
  | cons a t ih =>
    intro l₂ h
    cases l₂ with
    | nil => simp at h
    | cons b t₂ =>
      simp only [List.zip_cons_cons, List.map_cons]
      rw [ih t₂ (by simpa using h)]

/-- C1: the flush protocol: flush visits every grid position in index order,
skips clean cells, clears the dirty flag of each dirty cell and renders it, and
writes the rendered string to the sink and stores it into the shadow entry at
that index if and only if it differs from the current shadow entry — which is
exactly the specification-level `flushSpec`. -/
theorem flush_protocol (cur : Cursor)
    (h : cur.cells.length = cur.lastFrame.length) :
    cur.flush = flushSpec cur := by
  obtain ⟨w, ht, x, y, bg, fg, disp, cells, lastFrame, out⟩ := cur
  simp only [Cursor.flush, flushSpec, Cursor.mk.injEq, true_and] at h ⊢
  refine ⟨?_, ?_, ?_⟩
  · rw [flushZip_map_fst]
    exact map_fst_fn_zip
      (fun c => if c.isModified then c.setModified (some false) else c)
      cells lastFrame h
  · exact flushZip_map_snd _
  · rw [flushZip_out]

/-- Radio check for `flush_protocol` on a 2 by 1 screen that wrote one char. -/
theorem flush_protocol_witness :
    ((Cursor.create 2 1).write ['A']).cells.length
        = ((Cursor.create 2 1).write ['A']).lastFrame.length ∧
    ((Cursor.create 2 1).write ['A']).flush
        = flushSpec ((Cursor.create 2 1).write ['A']) :=
  ⟨by decide, flush_protocol _ (by decide)⟩

/-- Membership in the inclusive integer range. -/
lemma mem_intRange (v a b : Int) : v ∈ intRange a b ↔ a ≤ v ∧ v ≤ b := by
  unfold intRange
  constructor
  · intro hv
    obtain ⟨i, hi, hvi⟩ := List.mem_map.mp hv
    have h2 : i < (b + 1 - a).toNat := List.mem_range.mp hi
    rw [Int.lt_toNat] at h2
    omega
  · intro h
    apply List.mem_map.mpr
    refine ⟨(v - a).toNat, List.mem_range.mpr ?_, ?_⟩
    · rw [Int.lt_toNat, Int.toNat_of_nonneg (by omega : (0 : Int) ≤ v - a)]
      omega
    · rw [Int.toNat_of_nonneg (by omega : (0 : Int) ≤ v - a)]
      omega

/-- Length is preserved by the JavaScript array update. -/
lemma listModifyInt_length (l : List α) (i : Int) (f : α → α) :
    (listModifyInt l i f).length = l.length := by
  unfold listModifyInt
  split <;> simp

/-- Element view of the JavaScript array update. -/
lemma listModifyInt_get (l : List α) (i : Int) (f : α → α) (p : Nat) :
    (listModifyInt l i f)[p]? =
      if (p : Int) = i then (l[p]?).map f else l[p]? := by
  unfold listModifyInt
  by_cases hpi : (p : Int) = i
  · rw [if_pos hpi]
    split
    next hb =>
      have hip : i.toNat = p := by omega
      have hlt : p < l.length := by omega
      subst hip
      simp [List.getElem?_set_self, hb.2, List.getElem?_eq_getElem hb.2,
        List.get_eq_getElem]
    next hb =>
      have hge : l.length ≤ p := by
        rw [Decidable.not_and_iff_or_not] at hb
        rcases hb with hb | hb
        · omega
        · omega
      simp [List.getElem?_eq_none hge]
  · rw [if_neg hpi]
    split
    next hb =>
      exact List.getElem?_set_ne (by omega)
    next hb => rfl

/-- Resetting a cell twice is the same as resetting it once. -/
lemma reset_reset (c : Cell) : Cell.reset (Cell.reset c) = Cell.reset c := rfl

/-- Composition form of `reset_reset`. -/
lemma reset_comp : Cell.reset ∘ Cell.reset = Cell.reset := funext reset_reset

/-- Folding the reset update over a list of pointers resets exactly the cells an
existing pointer points to. -/
lemma resetFold_get (ps : List Int) :
    ∀ (cells : List Cell) (p : Nat),
      (ps.foldl (fun cs q => listModifyInt cs q Cell.reset) cells)[p]? =
        if (p : Int) ∈ ps then (cells[p]?).map Cell.reset else cells[p]? := by
  induction ps with
  | nil => intro cells p; simp
  | cons q tl ih =>
    intro cells p
    simp only [List.foldl_cons]
    rw [ih, listModifyInt_get]
    by_cases hq : (p : Int) = q <;> by_cases htl : (p : Int) ∈ tl <;>
      simp [hq, htl, List.mem_cons, Option.map_map, reset_comp]

/-- The inner x-loop of `erase` only rewrites the cell array. -/
lemma erase_inner_fold (xs : List Int) (y : Int) :
    ∀ st : Cursor,
      xs.foldl (fun s2 x =>
        { s2 with cells :=
            listModifyInt s2.cells (s2.getPointerFromXY x y) Cell.reset }) st
      = { st with cells := xs.foldl (fun cs x =>
            listModifyInt cs (y * (st.width : Int) + x) Cell.reset) st.cells } := by
  induction xs with
  | nil => intro st; rfl
  | cons a tl ih =>
    intro st
    simp only [List.foldl_cons]
    rw [ih]
    rfl

/-- The nested loops of `erase` are one fold of resets over the pointer list. -/
lemma erase_eq_fold (cur : Cursor) (x1 y1 x2 y2 : Int) :
    cur.erase x1 y1 x2 y2 =
      { cur with cells :=
          ((erasePointers cur x1 y1 x2 y2).foldl
            (fun cs q => listModifyInt cs q Cell.reset) cur.cells) } := by
  unfold Cursor.erase erasePointers
  generalize intRange x1 x2 = xs
  generalize intRange y1 y2 = ys
  induction ys generalizing cur with
  | nil => rfl
  | cons a tl ih =>
    simp only [List.foldl_cons, List.flatMap_cons]
    rw [erase_inner_fold xs a cur, List.foldl_append, List.foldl_map]
    exact ih _

/-- C2 (amended): `erase(x1,y1,x2,y2)` calls `reset()` exactly on the cells whose
array index appears among the visited pointers `y*width + x` for (x,y) in the
inclusive rectangle (second conjunct characterizes those pointers); a rectangle
coordinate whose pointer falls outside the array is skipped with no error, but a
coordinate with x outside `[0,width)` can produce a pointer into a different
row, so a cell outside the rectangle may be reset; the rest of the screen state
is untouched. -/
theorem erase_rectangle (cur : Cursor) (x1 y1 x2 y2 : Int) (p : Nat) :
    ((cur.erase x1 y1 x2 y2).cells[p]? =
      if (p : Int) ∈ erasePointers cur x1 y1 x2 y2
      then (cur.cells[p]?).map Cell.reset else cur.cells[p]?) ∧
    ((p : Int) ∈ erasePointers cur x1 y1 x2 y2 ↔
      ∃ x y, x1 ≤ x ∧ x ≤ x2 ∧ y1 ≤ y ∧ y ≤ y2 ∧
        (p : Int) = y * (cur.width : Int) + x) ∧
    (cur.erase x1 y1 x2 y2).x = cur.x ∧
    (cur.erase x1 y1 x2 y2).y = cur.y ∧
    (cur.erase x1 y1 x2 y2).lastFrame = cur.lastFrame ∧
    (cur.erase x1 y1 x2 y2).output = cur.output := by
  rw [erase_eq_fold]
  refine ⟨resetFold_get _ _ _, ?_, rfl, rfl, rfl, rfl⟩
  unfold erasePointers
  simp only [List.mem_flatMap, List.mem_map, mem_intRange]
  constructor
  · rintro ⟨y, hy, x, hx, he⟩
    exact ⟨x, y, hx.1, hx.2, hy.1, hy.2, he.symm⟩
  · rintro ⟨x, y, h1, h2, h3, h4, h5⟩
    exact ⟨y, ⟨h3, h4⟩, x, ⟨h1, h2⟩, h5.symm⟩

/-- Closed form of one `write` iteration: the guarded cell update (whose chained
setters amount to `penCell`) followed by the unconditional cursor advance. -/
lemma writeChar_eq (cur : Cursor) (ch : Char) :
    cur.writeChar ch =
      if 0 ≤ cur.x ∧ cur.x < (cur.width : Int) ∧
          0 ≤ cur.y ∧ cur.y < (cur.height : Int) then
        { cur with
            cells := (listModifyInt cur.cells
              (cur.y * (cur.width : Int) + cur.x)
              (fun _ => penCell cur ch cur.x)),
            x := cur.x + 1 }
      else { cur with x := cur.x + 1 } := by
  simp only [Cursor.writeChar, Cursor.getPointerFromXY]
  split <;> rfl

/-- Each `write` iteration advances the cursor column by one. -/
lemma writeChar_x (cur : Cursor) (ch : Char) :
    (cur.writeChar ch).x = cur.x + 1 := by
  rw [writeChar_eq]
  split <;> rfl

/-- Each `write` iteration keeps the cursor row. -/
lemma writeChar_y (cur : Cursor) (ch : Char) :
    (cur.writeChar ch).y = cur.y := by
  rw [writeChar_eq]
  split <;> rfl

/-- Each `write` iteration keeps the viewport width. -/
lemma writeChar_width (cur : Cursor) (ch : Char) :
    (cur.writeChar ch).width = cur.width := by
  rw [writeChar_eq]
  split <;> rfl

/-- Each `write` iteration keeps the viewport height. -/
lemma writeChar_height (cur : Cursor) (ch : Char) :
    (cur.writeChar ch).height = cur.height := by
  rw [writeChar_eq]
  split <;> rfl

/-- Each `write` iteration keeps the number of cells. -/
lemma writeChar_cells_length (cur : Cursor) (ch : Char) :
    (cur.writeChar ch).cells.length = cur.cells.length := by
  rw [writeChar_eq]
  split
  · show (listModifyInt cur.cells (cur.y * (cur.width : Int) + cur.x)
        (fun _ => penCell cur ch cur.x)).length = cur.cells.length
    exact listModifyInt_length _ _ _
  · rfl

/-- The stamped cell value only depends on the pen state, which a `write`
iteration never changes. -/
lemma penCell_writeChar (cur : Cursor) (ch0 ch : Char) (xx : Int) :
    penCell (cur.writeChar ch0) ch xx = penCell cur ch xx := by
  unfold penCell
  rw [writeChar_eq]
  split <;> rfl

/-- Element view of one `write` iteration: exactly the pointed-to cell is
overwritten with the stamped value, and only when the cursor is in bounds. -/
lemma writeChar_cells (cur : Cursor) (ch : Char)
    (hlen : cur.cells.length = cur.width * cur.height) (p : Nat) :
    (cur.writeChar ch).cells[p]? =
      if (0 ≤ cur.x ∧ cur.x < (cur.width : Int) ∧
            0 ≤ cur.y ∧ cur.y < (cur.height : Int)) ∧
          (p : Int) = cur.y * (cur.width : Int) + cur.x
      then some (penCell cur ch cur.x)
      else cur.cells[p]? := by
  rw [writeChar_eq]
  by_cases hb : 0 ≤ cur.x ∧ cur.x < (cur.width : Int) ∧
      0 ≤ cur.y ∧ cur.y < (cur.height : Int)
  · rw [if_pos hb]
    show (listModifyInt cur.cells (cur.y * (cur.width : Int) + cur.x)
        (fun _ => penCell cur ch cur.x))[p]? = _
    rw [listModifyInt_get]
    by_cases hp : (p : Int) = cur.y * (cur.width : Int) + cur.x
    · rw [if_pos hp, if_pos ⟨hb, hp⟩]
      obtain ⟨hx0, hxw, hy0, hyh⟩ := hb
      have hyw : cur.y * (cur.width : Int) + cur.x
          < ((cur.width * cur.height : Nat) : Int) := by
        push_cast
        nlinarith [mul_nonneg
          (show (0 : Int) ≤ (cur.height : Int) - cur.y - 1 by omega)
          (show (0 : Int) ≤ (cur.width : Int) by omega)]
      have hpI : (p : Int) < ((cur.width * cur.height : Nat) : Int) := by
        rw [hp]; exact hyw
      have hplen : p < cur.cells.length := by
        rw [hlen]; exact_mod_cast hpI
      rw [List.getElem?_eq_getElem hplen]
      rfl
    · rw [if_neg hp, if_neg (fun hcon => hp hcon.2)]
  · rw [if_neg hb, if_neg (fun hcon => hb hcon.1)]

/-- Writing advances the cursor column by the number of characters written. -/
lemma write_x (data : List Char) :
    ∀ cur : Cursor, (cur.write data).x = cur.x + (data.length : Int) := by
  induction data with
  | nil => intro cur; show cur.x = _; simp
  | cons ch tl ih =>
    intro cur
    show ((cur.writeChar ch).write tl).x = _
    rw [ih, writeChar_x]
    push_cast [List.length_cons]
    ring

/-- Writing never moves the cursor to another row. -/
lemma write_y (data : List Char) :
    ∀ cur : Cursor, (cur.write data).y = cur.y := by
  induction data with
  | nil => intro cur; rfl
  | cons ch tl ih =>
    intro cur
    show ((cur.writeChar ch).write tl).y = _
    rw [ih, writeChar_y]

/-- Element view of a whole `write` call: within the cursor's row, the cells at
columns `x .. x + length - 1` that lie in the viewport receive the corresponding
character stamped with the pen state; every other cell is untouched. -/
lemma write_cells (data : List Char) :
    ∀ cur : Cursor, cur.cells.length = cur.width * cur.height →
      ∀ p : Nat,
        (cur.write data).cells[p]? =
          if (0 ≤ cur.y ∧ cur.y < (cur.height : Int)) ∧
              cur.x ≤ (p : Int) - cur.y * (cur.width : Int) ∧
              (p : Int) - cur.y * (cur.width : Int)
                < cur.x + (data.length : Int) ∧
              0 ≤ (p : Int) - cur.y * (cur.width : Int) ∧
              (p : Int) - cur.y * (cur.width : Int) < (cur.width : Int)
          then (data[((p : Int) - cur.y * (cur.width : Int) - cur.x).toNat]?).map
                (fun ch => penCell cur ch ((p : Int) - cur.y * (cur.width : Int)))
          else cur.cells[p]? := by
  induction data with
  | nil =>
    intro cur hlen p
    show cur.cells[p]? = _
    split
    next hcond =>
      exfalso
      obtain ⟨-, h2, h3, -, -⟩ := hcond
      simp only [List.length_nil, Nat.cast_zero, add_zero] at h3
      linarith
    next => rfl
  | cons ch tl ih =>
    intro cur hlen p
    have hx := writeChar_x cur ch
    have hyy := writeChar_y cur ch
    have hw := writeChar_width cur ch
    have hh := writeChar_height cur ch
    have hlen1 : (cur.writeChar ch).cells.length =
        (cur.writeChar ch).width * (cur.writeChar ch).height := by
      rw [writeChar_cells_length, hw, hh, hlen]
    have step : cur.write (ch :: tl) = (cur.writeChar ch).write tl := rfl
    rw [step]
    have ihh := ih (cur.writeChar ch) hlen1 p
    rw [hx, hyy, hw, hh] at ihh
    simp only [penCell_writeChar] at ihh
    rw [ihh, writeChar_cells cur ch hlen p]
    simp only [List.length_cons, Nat.cast_add, Nat.cast_one]
    set z := cur.y * (cur.width : Int) with hz
    by_cases h1 : (0 ≤ cur.y ∧ cur.y < (cur.height : Int)) ∧
        cur.x + 1 ≤ (p : Int) - z ∧
        (p : Int) - z < cur.x + 1 + (tl.length : Int) ∧
        0 ≤ (p : Int) - z ∧ (p : Int) - z < (cur.width : Int)
    · have hC : (0 ≤ cur.y ∧ cur.y < (cur.height : Int)) ∧
          cur.x ≤ (p : Int) - z ∧
          (p : Int) - z < cur.x + ((tl.length : Int) + 1) ∧
          0 ≤ (p : Int) - z ∧ (p : Int) - z < (cur.width : Int) :=
        ⟨h1.1, by omega, by omega, by omega, by omega⟩
      rw [if_pos h1, if_pos hC]
      have hidx : ((p : Int) - z - cur.x).toNat
          = ((p : Int) - z - (cur.x + 1)).toNat + 1 := by omega
      rw [hidx, List.getElem?_cons_succ]
    · rw [if_neg h1]
      by_cases h2 : (0 ≤ cur.x ∧ cur.x < (cur.width : Int) ∧
          0 ≤ cur.y ∧ cur.y < (cur.height : Int)) ∧ (p : Int) = z + cur.x
      · have hC : (0 ≤ cur.y ∧ cur.y < (cur.height : Int)) ∧
            cur.x ≤ (p : Int) - z ∧
            (p : Int) - z < cur.x + ((tl.length : Int) + 1) ∧
            0 ≤ (p : Int) - z ∧ (p : Int) - z < (cur.width : Int) :=
          ⟨⟨h2.1.2.2.1, h2.1.2.2.2⟩, by omega, by omega, by omega, by omega⟩
        rw [if_pos h2, if_pos hC]
        have hidx : ((p : Int) - z - cur.x).toNat = 0 := by omega
        have hxx : (p : Int) - z = cur.x := by omega
        rw [hidx, hxx, List.getElem?_cons_zero]
        rfl
      · have hnc : ¬((0 ≤ cur.y ∧ cur.y < (cur.height : Int)) ∧
            cur.x ≤ (p : Int) - z ∧
            (p : Int) - z < cur.x + ((tl.length : Int) + 1) ∧
            0 ≤ (p : Int) - z ∧ (p : Int) - z < (cur.width : Int)) := by
          rintro ⟨⟨hy0, hyh⟩, hge, hlt, hd0, hdw⟩
          by_cases hdx : (p : Int) - z = cur.x
          · exact h2 ⟨⟨by omega, by omega, hy0, hyh⟩, by omega⟩
          · exact h1 ⟨⟨hy0, hyh⟩, by omega, by omega, hd0, hdw⟩
        rw [if_neg h2, if_neg hnc]

/-- C3: `write(text)` processes each character in order: when the cursor lies in
`[0,width) x [0,height)` the cell at index `y*width + x` is overwritten with the
character, the cursor coordinates and the pen state and marked dirty, and in all
cases the cursor x advances by exactly one per character, with no wrapping to
the next line (y never changes) and no effect on any other cell. -/
theorem write_no_wrap (cur : Cursor) (data : List Char)
    (hlen : cur.cells.length = cur.width * cur.height) :
    (cur.write data).x = cur.x + (data.length : Int) ∧
    (cur.write data).y = cur.y ∧
    ∀ p : Nat,
      (cur.write data).cells[p]? =
        if (0 ≤ cur.y ∧ cur.y < (cur.height : Int)) ∧
            cur.x ≤ (p : Int) - cur.y * (cur.width : Int) ∧
            (p : Int) - cur.y * (cur.width : Int) < cur.x + (data.length : Int) ∧
            0 ≤ (p : Int) - cur.y * (cur.width : Int) ∧
            (p : Int) - cur.y * (cur.width : Int) < (cur.width : Int)
        then (data[((p : Int) - cur.y * (cur.width : Int) - cur.x).toNat]?).map
              (fun ch => penCell cur ch ((p : Int) - cur.y * (cur.width : Int)))
        else cur.cells[p]? :=
  ⟨write_x data cur, write_y data cur, write_cells data cur hlen⟩

/-- Radio check for `write_no_wrap` on a 3 by 2 screen writing two chars. -/
theorem write_no_wrap_witness :
    (Cursor.create 3 2).cells.length
        = (Cursor.create 3 2).width * (Cursor.create 3 2).height ∧
    ((Cursor.create 3 2).write ['H', 'i']).x
        = (Cursor.create 3 2).x + ((['H', 'i'] : List Char).length : Int) :=
  ⟨by decide, (write_no_wrap (Cursor.create 3 2) ['H', 'i'] (by decide)).1⟩
